import Mathlib

/-!
Verification development for the TSAR (Traits Static Analyzer) excerpt:
the per-loop dependence/trait classifier interface, the trait-report
emission format checked by the `private_array_2.c` regression fixture,
the SAPFOR pragma handlers (`PragmaHandlers.cpp`), the distribution
limits checker (`DistributionLimits.cpp`) and the default pragma handler
registration (`DefaultPragmaHandlers.h`).

The dependence classifier and the emitter themselves are not part of the
excerpted sources; where a claim needs them they are modelled from the
specification text, and each such definition says so in its doc comment.
The regression fixture's expected report (the CHECK lines of
`test/private/private_array_2.c`) is embedded verbatim as concrete data.
-/

namespace Tsar

/-- The closed set of trait labels of the per-loop classifier
(spec §3, `LoopTraitSet`). -/
inductive TraitLabel where
  | firstPrivate
  | lastPrivate
  | privateL
  | readOnly
  | inductionL
  | reduction
  | flow
  | anti
  | output
  | lock
  | headerAccess
  | explicitAccess
deriving DecidableEq, Repr

/-- A label claims privatizability of a location (spec §4.4 step 4:
the labels suppressed when a cross-iteration dependence is detected
are `Private`, `ReadOnly` and `Induction`). -/
def TraitLabel.isPrivatizability : TraitLabel → Bool
  | .privateL => true
  | .readOnly => true
  | .inductionL => true
  | _ => false

/-- A label records a cross-iteration dependence (spec §4.4:
`Flow`, `Anti`, `Output`). -/
def TraitLabel.isDependence : TraitLabel → Bool
  | .flow => true
  | .anti => true
  | .output => true
  | _ => false

/-- Modelled from the spec: §4.4 step 4 (conflict resolution) of the
classifier, whose source is not in the excerpt. "Flow/Anti/Output ...
always dominates privatizability claims for the same location ... if
dependence is detected, Private/ReadOnly/Induction labels for that exact
location are suppressed." Given the candidate label set collected for
one (loop, location) pair, produce the resolved label set. -/
def resolveTraits (candidate : List TraitLabel) : List TraitLabel :=
  if candidate.any TraitLabel.isDependence then
    candidate.filter (fun l => ¬ l.isPrivatizability)
  else
    candidate

/-- A location specification of a trait report entry
(spec §6: `<name>:<line>:<col>, <size-or-?>`). `size = none` is
printed `?` (unknown size). -/
structure LocSpec where
  name : String
  line : Nat
  col : Nat
  size : Option Nat
deriving DecidableEq, Repr

/-- The variable underlying a location spec: `*X` (the memory reached
through the pointer `X`) and `X` (the pointer itself) both refer to the
source variable `X`. -/
def LocSpec.base (l : LocSpec) : String :=
  String.mk (l.name.toList.dropWhile (fun c => c = '*'))

/-- `<name>:<line>:<col>, <size-or-?>` as the diagnostic printer writes
it, e.g. `<*X:1:18, ?>`. -/
def LocSpec.render (l : LocSpec) : String :=
  "<" ++ l.name ++ ":" ++ toString l.line ++ ":" ++ toString l.col ++ ", " ++
    (match l.size with
     | some n => toString n
     | none => "?") ++ ">"

/-- A Flow/Anti/Output report entry: a location together with its
dependence-distance vector (the integers printed between `[` and `]`). -/
structure DepEntry where
  loc : LocSpec
  distance : List Int
deriving DecidableEq, Repr

/-- `<loc>:[d1,...]`, e.g. `<*X:1:18, ?>:[1,1]`. -/
def DepEntry.render (e : DepEntry) : String :=
  e.loc.render ++ ":[" ++ String.intercalate "," (e.distance.map toString) ++ "]"

/-- An induction report entry: a location with the induction descriptor
`[type,start,end,step]`; an unknown component is printed empty. -/
structure IndEntry where
  loc : LocSpec
  ty : String
  start : Option Int
  stop : Option Int
  step : Option Int
deriving DecidableEq, Repr

/-- Renders `none` as the empty component of an induction descriptor. -/
def renderOptInt : Option Int → String
  | some n => toString n
  | none => ""

/-- `<loc>:[ty,start,end,step]`, e.g. `<I:4:12, 4>:[Int,1,,1]`. -/
def IndEntry.render (e : IndEntry) : String :=
  e.loc.render ++ ":[" ++ e.ty ++ "," ++ renderOptInt e.start ++ "," ++
    renderOptInt e.stop ++ "," ++ renderOptInt e.step ++ "]"

/-- One loop's emitted trait report, in the section layout the
`private_array_2.c` fixture checks (spec §4.5, §6). -/
structure Report where
  depth : Nat
  file : String
  line : Nat
  col : Nat
  firstPrivate : List LocSpec
  anti : List DepEntry
  flow : List DepEntry
  inductionSec : List IndEntry
  readOnly : List LocSpec
  lock : List LocSpec
  headerAccess : List LocSpec
  explicitAccess : List LocSpec
  explicitSeparate : List LocSpec
  output : List DepEntry
deriving DecidableEq, Repr

/-- A section: title line, then one line with the entries merged by
`" | "`. An empty section is not printed. -/
def renderSec (title : String) (entries : List String) : List String :=
  if entries.isEmpty then [] else [title ++ ":", String.intercalate " | " entries]

/-- The `explicit access (separate)` section: entries individually
delimited (space-separated), not merged by `" | "`. -/
def renderSecSeparate (title : String) (entries : List String) : List String :=
  if entries.isEmpty then [] else [title ++ ":", String.intercalate " " entries]

/-- The report as the diagnostic printer writes it (one string per
output line, indentation dropped), in the fixed section order of
spec §4.5. -/
def Report.render (r : Report) : List String :=
  ["loop at depth " ++ toString r.depth ++ " " ++ r.file ++ ":" ++
     toString r.line ++ ":" ++ toString r.col] ++
  renderSec "first private" (r.firstPrivate.map LocSpec.render) ++
  renderSec "anti" (r.anti.map DepEntry.render) ++
  renderSec "flow" (r.flow.map DepEntry.render) ++
  renderSec "induction" (r.inductionSec.map IndEntry.render) ++
  renderSec "read only" (r.readOnly.map LocSpec.render) ++
  renderSec "lock" (r.lock.map LocSpec.render) ++
  renderSec "header access" (r.headerAccess.map LocSpec.render) ++
  renderSec "explicit access" (r.explicitAccess.map LocSpec.render) ++
  renderSecSeparate "explicit access (separate)"
    (r.explicitSeparate.map LocSpec.render) ++
  renderSec "output" (r.output.map DepEntry.render)

/-- The expected report of the regression fixture
`test/private/private_array_2.c` for the loop `for (int I = 1;
I < N - 1; ++I)`, embedded from the fixture's CHECK lines. -/
def fixtureReport : Report where
  depth := 1
  file := "private_array_2.c"
  line := 4
  col := 3
  firstPrivate := [⟨"T", 2, 10, some 24⟩]
  anti := [⟨⟨"*X", 1, 18, none⟩, [1, 1]⟩]
  flow := [⟨⟨"*X", 1, 18, none⟩, [1, 1]⟩]
  inductionSec := [⟨⟨"I", 4, 12, some 4⟩, "Int", some 1, none, some 1⟩]
  readOnly := [⟨"N", 1, 25, some 4⟩, ⟨"X", 1, 18, some 8⟩]
  lock := [⟨"I", 4, 12, some 4⟩, ⟨"N", 1, 25, some 4⟩]
  headerAccess := [⟨"*X", 1, 18, none⟩, ⟨"I", 4, 12, some 4⟩, ⟨"N", 1, 25, some 4⟩]
  explicitAccess := [⟨"I", 4, 12, some 4⟩, ⟨"N", 1, 25, some 4⟩, ⟨"X", 1, 18, some 8⟩]
  explicitSeparate := [⟨"I", 4, 12, some 4⟩, ⟨"N", 1, 25, some 4⟩, ⟨"X", 1, 18, some 8⟩]
  output := []

/-- The CHECK lines of `test/private/private_array_2.c` (indentation
dropped), character for character. -/
def fixtureCheckLines : List String :=
  ["loop at depth 1 private_array_2.c:4:3",
   "first private:", "<T:2:10, 24>",
   "anti:", "<*X:1:18, ?>:[1,1]",
   "flow:", "<*X:1:18, ?>:[1,1]",
   "induction:", "<I:4:12, 4>:[Int,1,,1]",
   "read only:", "<N:1:25, 4> | <X:1:18, 8>",
   "lock:", "<I:4:12, 4> | <N:1:25, 4>",
   "header access:", "<*X:1:18, ?> | <I:4:12, 4> | <N:1:25, 4>",
   "explicit access:", "<I:4:12, 4> | <N:1:25, 4> | <X:1:18, 8>",
   "explicit access (separate):", "<I:4:12, 4> <N:1:25, 4> <X:1:18, 8>"]

/-- The embedded report reproduces the fixture's CHECK text exactly:
the data model above is faithful to the source fixture. -/
theorem fixtureReport_render_eq : fixtureReport.render = fixtureCheckLines := by
  decide

/-- Splits a character list at every occurrence of `sep` (the separator
dropped), for checking rendered report lines. -/
def splitOnChar (sep : Char) : List Char → List (List Char)
  | [] => [[]]
  | c :: cs =>
    let r := splitOnChar sep cs
    if c = sep then [] :: r
    else
      match r with
      | [] => [[c]]
      | g :: gs => (c :: g) :: gs

/-- Checks that a rendered entry is a location spec of the documented
form `<name>:<line>:<col>, <size-or-?>`: angle brackets around a name,
a decimal line, a decimal column, then a comma, a blank and either a
decimal size or `?`. -/
def isLocSpecChars (cs : List Char) : Bool :=
  match cs with
  | '<' :: rest =>
    (rest.getLast? == some '>') &&
    (match splitOnChar ',' (rest.dropLast) with
     | [lhs, rhs] =>
       (match rhs with
        | ' ' :: size =>
          (size == ['?']) || (!size.isEmpty && size.all Char.isDigit)
        | _ => false) &&
       (match splitOnChar ':' lhs with
        | [nm, ln, cl] =>
          !nm.isEmpty && !ln.isEmpty && ln.all Char.isDigit &&
            !cl.isEmpty && cl.all Char.isDigit
        | _ => false)
     | _ => false)
  | _ => false

/-- A character a dependence-distance vector may hold: a decimal digit,
a comma or a minus sign. -/
def isDistChar (c : Char) : Bool :=
  c.isDigit || c == ',' || c == '-'

/-- Checks whether a rendered line carries a bracketed
dependence-distance vector: a `:[v]` whose content `v` is nonempty and
built of digits, commas and signs only (the induction descriptor
`[Int,1,,1]` is not one: its first component is a type name). -/
def hasDepVectorChars (cs : List Char) : Bool :=
  cs.tails.any fun t =>
    match t with
    | ':' :: '[' :: rest =>
      let v := rest.takeWhile (fun c => c ≠ ']')
      rest.any (fun c => c = ']') && !v.isEmpty && v.all isDistChar
    | _ => false

/-- Every location spec a report shows, over all its sections. -/
def Report.allLocSpecs (r : Report) : List LocSpec :=
  r.firstPrivate ++ r.anti.map DepEntry.loc ++ r.flow.map DepEntry.loc ++
    r.inductionSec.map IndEntry.loc ++ r.readOnly ++ r.lock ++
    r.headerAccess ++ r.explicitAccess ++ r.explicitSeparate ++
    r.output.map DepEntry.loc

/-- The rendered lines of every section other than `flow`, `anti` and
`output` (titles included). -/
def Report.nonDepLines (r : Report) : List String :=
  renderSec "first private" (r.firstPrivate.map LocSpec.render) ++
  renderSec "induction" (r.inductionSec.map IndEntry.render) ++
  renderSec "read only" (r.readOnly.map LocSpec.render) ++
  renderSec "lock" (r.lock.map LocSpec.render) ++
  renderSec "header access" (r.headerAccess.map LocSpec.render) ++
  renderSec "explicit access" (r.explicitAccess.map LocSpec.render) ++
  renderSecSeparate "explicit access (separate)"
    (r.explicitSeparate.map LocSpec.render)

/-- The report's section identifiers, in the roles of spec §4.5. -/
inductive SecName where
  | firstPrivate
  | anti
  | flow
  | inductionS
  | readOnly
  | lock
  | headerAccess
  | explicitAccess
  | explicitSeparate
deriving DecidableEq, Repr

/-- The fixed section order of spec §4.5: "first-private, anti, flow,
induction, read-only, lock, header-access, explicit-access,
explicit-access-separate". -/
def emitSectionOrder : List SecName :=
  [.firstPrivate, .anti, .flow, .inductionS, .readOnly, .lock,
   .headerAccess, .explicitAccess, .explicitSeparate]

/-- The trait label a section reports. The `explicit access (separate)`
section reports the same label as `explicit access` (spec §4.5: "the
same set as explicit-access but rendered as individually delimited
entries"). -/
def SecName.label : SecName → TraitLabel
  | .firstPrivate => .firstPrivate
  | .anti => .anti
  | .flow => .flow
  | .inductionS => .inductionL
  | .readOnly => .readOnly
  | .lock => .lock
  | .headerAccess => .headerAccess
  | .explicitAccess => .explicitAccess
  | .explicitSeparate => .explicitAccess

/-- One resolved (location, label-set) pair of a loop's `LoopTraitSet`,
as handed to emission. -/
structure ResolvedLoc where
  loc : LocSpec
  labels : List TraitLabel
deriving DecidableEq, Repr

/-- Modelled from the spec: §4.5 trait emission, whose source is not in
the excerpt. The classifier's resolved pairs arrive in whatever order
the instruction walk produced them (`rs`); `emit` groups them by label
into sections, the sections laid out in the fixed order of §4.5. -/
def emit (rs : List ResolvedLoc) : List (SecName × List LocSpec) :=
  emitSectionOrder.map fun s =>
    (s, (rs.filter (fun r => s.label ∈ r.labels)).map ResolvedLoc.loc)

/-- The entries the emitted report shows under section `s`. -/
def sectionLocs (rs : List ResolvedLoc) (s : SecName) : List LocSpec :=
  (rs.filter (fun r => s.label ∈ r.labels)).map ResolvedLoc.loc

/-! ## Pragma handlers (`PragmaHandlers.cpp`)

Shallow embedding of the token-level pragma replacement machinery.
Source locations and token lengths only feed diagnostics and are
dropped; a token is its kind, with the payload (identifier spelling,
string content) that the handlers inspect. -/

/-- A preprocessor token, by kind. `eod` is `tok::eod`, the
end-of-directive token. -/
inductive TokKind where
  | identifier : String → TokKind
  | keyword : String → TokKind
  | str : String → TokKind
  | numeric : String → TokKind
  | l_brace
  | r_brace
  | semi
  | comma
  | l_paren
  | r_paren
  | externKw
  | kw_void
  | kw_char
  | kw_const
  | star
  | eod
  | other
deriving DecidableEq, Repr

/-- `PP.LexUnexpandedToken` on a finite pragma token stream: past the
end the preprocessor keeps yielding `tok::eod`. -/
def lex1 : List TokKind → TokKind × List TokKind
  | [] => (.eod, [])
  | t :: ts => (t, ts)

/-- The do-while loop of `PragmaNamespaceReplacer::HandlePragma` that
lexes every remaining directive token into `mTokensToRelex`, the final
`tok::eod` included, and returns the unread rest of the stream. -/
def collectToRelex : List TokKind → List TokKind × List TokKind
  | [] => ([.eod], [])
  | t :: ts =>
    if t = .eod then ([.eod], ts)
    else
      let p := collectToRelex ts
      (t :: p.1, p.2)

/-- What a directive handler invocation leaves behind:
`Handler->HandlePragma(ExternalPP, Introducer.Kind, RelexFrom)` may
append tokens to the namespace's replacement queue (through
`getReplacement()`) and leaves `RelexFrom` at some final token. The
namespace replacer treats the handler as a black box, so the embedding
takes it as a function from (initial relex token, tokens to relex) to
this outcome. -/
structure HandlerOutcome where
  relexAfter : TokKind
  appended : List TokKind
deriving DecidableEq, Repr

/-- The observable result of `PragmaNamespaceReplacer::HandlePragma`:
the diagnostic it emitted if it returned early, the final `RelexFrom`
token when the directive handler ran (`none` on an early return), and
the token queue passed to `PP.EnterTokenStream` (`none` when nothing
was injected). -/
structure NSResult where
  diag : Option String
  relexAfter : Option TokKind
  injected : Option (List TokKind)
deriving DecidableEq, Repr

/-- The directive name `PragmaNamespaceReplacer::HandlePragma` reads
from the first lexed token: an identifier's spelling, a keyword's
spelling, or nothing (which raises `err_expected`). -/
def directiveNameOf : TokKind → Option String
  | .identifier n => some n
  | .keyword kw => some kw
  | _ => none

/-- `PragmaNamespaceReplacer::HandlePragma`, embedded from the source.
`isKnownDirective` stands for `getTsarDirective`, `hasHandler` for
`FindHandler`, `handler` for the found handler's `HandlePragma`, and
`stream` for the not-yet-lexed tokens of the directive. -/
def PragmaNamespaceReplacer.HandlePragma (nsName : String)
    (isKnownDirective : String → Bool) (hasHandler : String → Bool)
    (handler : TokKind → List TokKind → HandlerOutcome)
    (stream : List TokKind) : NSResult :=
  let p := lex1 stream
  match directiveNameOf p.1 with
  | none => ⟨some "err_expected name of directive", none, none⟩
  | some dirName =>
    if ¬ isKnownDirective dirName then
      ⟨some "err_unknown_directive", none, none⟩
    else if ¬ hasHandler dirName then
      ⟨some "warn_pragma_ignored", none, none⟩
    else
      let queue0 : List TokKind := [.l_brace, .str nsName, .semi]
      let r := collectToRelex p.2
      let out := handler p.1 r.1
      if out.relexAfter = .eod then
        ⟨none, some out.relexAfter,
          some (queue0 ++ out.appended ++ [.r_brace])⟩
      else
        ⟨none, some out.relexAfter, none⟩

/-- `InsertDeclarationForActualInstrumentation`, embedded from the
source: the declaration tokens `extern void <name>(const char*);`
pushed ahead of the call (the comma and ellipsis tokens the source
builds are never pushed). -/
def InsertDeclarationForActualInstrumentation (funcName : String) :
    List TokKind :=
  [.externKw, .kw_void, .identifier funcName, .l_paren, .kw_const,
   .kw_char, .star, .r_paren, .semi]

/-- The token-reading loop of `ReplacePragmaWithCall`: every identifier
spelling and every comma of the pragma body, concatenated, up to
`tok::eod`. -/
def collectIdentifiers : List TokKind → String
  | [] => ""
  | t :: ts =>
    match t with
    | .eod => ""
    | .identifier n => n ++ collectIdentifiers ts
    | .comma => "," ++ collectIdentifiers ts
    | _ => collectIdentifiers ts

/-- `ReplacePragmaWithCall`, embedded from the source: the token queue
entered into the preprocessor — the declaration of `FunctionName`
followed by `FunctionName("<identifiers>");` where the string literal
holds the pragma body's identifiers and commas in quotes. -/
def ReplacePragmaWithCall (funcName : String)
    (pragmaToks : List TokKind) : List TokKind :=
  InsertDeclarationForActualInstrumentation funcName ++
    [.identifier funcName, .l_paren,
     .str ("\"" ++ collectIdentifiers pragmaToks ++ "\""),
     .r_paren, .semi]

/-- The runtime registration function named by both Dvm replacers.
Its definition is outside the excerpt (`PragmaHandlers.h`); only its
identity matters here: both handlers pass this same constant. -/
def RegPragmaFunctionName : String := "RegPragmaFunctionName"

/-- `DvmActualReplacer::HandlePragma`, embedded from the source: it
forwards to `ReplacePragmaWithCall` with `RegPragmaFunctionName`. -/
def DvmActualReplacer.HandlePragma (pragmaToks : List TokKind) :
    List TokKind :=
  ReplacePragmaWithCall RegPragmaFunctionName pragmaToks

/-- `DvmGetActualReplacer::HandlePragma`, embedded from the source: it
forwards to `ReplacePragmaWithCall` with `RegPragmaFunctionName` as
well. -/
def DvmGetActualReplacer.HandlePragma (pragmaToks : List TokKind) :
    List TokKind :=
  ReplacePragmaWithCall RegPragmaFunctionName pragmaToks

/-! ## Alias tree lookup and its caller (`DistributionLimits.cpp`) -/

/-- A memory location as the alias tree keys it: an address value and a
location size (`none` for unknown). -/
structure MemLoc where
  ptr : Nat
  size : Option Nat
deriving DecidableEq, Repr

/-- Modelled from the spec: §4.3, the alias tree's registry of estimate
memory nodes; `AliasTree::find` itself is outside the excerpt. Each
registered location maps to its estimate memory node (an index). -/
structure AliasTreeM where
  registered : List (MemLoc × Nat)
deriving DecidableEq, Repr

/-- Modelled from the spec: §4.3 `find(loc) -> EstimateMemory-node-or-
null` — the node registered for that exact location, or `none` when no
estimate memory has been registered for it yet. -/
def AliasTreeM.find (t : AliasTreeM) (loc : MemLoc) : Option Nat :=
  match t.registered.find? (fun p => p.1 = loc) with
  | some p => some p.2
  | none => none

/-- How `APCDistrLimitsChecker::runOnFunction` continues after one
memory access's lookups. -/
inductive CheckerStep where
  | assertFail : String → CheckerStep
  | skip : CheckerStep
  | proceed : Nat → CheckerStep
deriving DecidableEq, Repr

/-- The per-access prologue of `APCDistrLimitsChecker::runOnFunction`,
embedded from the source: `auto *EM{AT.find(Loc)}; assert(EM &&
"Estimate memory must be presented in alias tree!");` — a null `find`
result fails the assertion, while a null `getRawDIMemoryIfExists`
result (`rawDIM`) returns from the access callback benignly. -/
def distrLimitsHandleAccess (findResult : Option Nat)
    (rawDIM : Option Nat) : CheckerStep :=
  match findResult with
  | none => .assertFail "Estimate memory must be presented in alias tree!"
  | some em =>
    match rawDIM with
    | none => .skip
    | some _ => .proceed em

/-! ## Default pragma handler registration (`DefaultPragmaHandlers.h`) -/

/-- The directive tables of `tsar/Support/Directives.h` (outside the
excerpt), abstracted: the sentinel and count of each id kind, the id of
the `Dvm` namespace, and the `getParent` maps. Ids are numbers, as the
enumerations are iterated numerically by the registration loops. -/
structure DirectiveTables where
  notNamespace : Nat
  numNamespaces : Nat
  notDirective : Nat
  numDirectives : Nat
  dvm : Nat
  directiveParent : Nat → Nat

/-- The ids a `for (auto Id = lo + 1; Id < hi; ++Id)` loop visits. -/
def idRange (lo hi : Nat) : List Nat :=
  (List.range hi).filter (fun i => lo < i)

/-- `AddTsarPragmaHandlers`, embedded from the source, as the list of
(namespace id, directive id) pairs for which a `PragmaReplacer` is
created and attached: for every namespace id after `NotNamespace`, a
directive is attached when its parent is that namespace — unless its
parent is the `Dvm` namespace, which the loop skips with `continue`. -/
def AddTsarPragmaHandlers (T : DirectiveTables) : List (Nat × Nat) :=
  (idRange T.notNamespace T.numNamespaces).flatMap fun nid =>
    (idRange T.notDirective T.numDirectives).filterMap fun did =>
      if T.directiveParent did = nid then
        if T.directiveParent did = T.dvm then none
        else some (nid, did)
      else none

/-- A concrete directive table exercising the registration loop:
two namespaces (ids 1 and 2), `Dvm` being id 2, and one directive
(id 1) whose parent is namespace 1. -/
def sampleTables : DirectiveTables where
  notNamespace := 0
  numNamespaces := 3
  notDirective := 0
  numDirectives := 2
  dvm := 2
  directiveParent := fun _ => 1

end Tsar

namespace Tsar

/-- C1: for every loop and every memory location, the resolved trait
label set never contains both `Private` and `Flow` for the identical
location, and when a cross-iteration dependence (`Flow`, `Anti` or
`Output`) is detected among the candidate labels of that exact
location, the privatizability labels (`Private`, `ReadOnly`,
`Induction`) are suppressed by resolution. -/
theorem resolveTraits_exclusive (cand : List TraitLabel) :
    (¬ (TraitLabel.privateL ∈ resolveTraits cand ∧
        TraitLabel.flow ∈ resolveTraits cand)) ∧
    ((TraitLabel.flow ∈ cand ∨ TraitLabel.anti ∈ cand ∨
        TraitLabel.output ∈ cand) →
      TraitLabel.privateL ∉ resolveTraits cand ∧
      TraitLabel.readOnly ∉ resolveTraits cand ∧
      TraitLabel.inductionL ∉ resolveTraits cand) := by
  unfold resolveTraits
  by_cases h : cand.any TraitLabel.isDependence
  · simp only [h, if_true]
    constructor
    · rintro ⟨hp, -⟩
      have := (List.mem_filter.mp hp).2
      simp [TraitLabel.isPrivatizability] at this
    · intro _
      refine ⟨?_, ?_, ?_⟩ <;>
        · intro hm
          have := (List.mem_filter.mp hm).2
          simp [TraitLabel.isPrivatizability] at this
  · simp only [h, if_false]
    have hall := List.any_eq_false.mp (Bool.eq_false_iff.mpr h)
    constructor
    · rintro ⟨-, hf⟩
      exact hall _ hf rfl
    · rintro (hf | hf | hf) <;> exact absurd rfl (hall _ hf)

/-- C1 witness: at the concrete candidate set
`[Private, ReadOnly, Flow]` resolution drops `Private` and keeps the
label sets exclusive. -/
theorem resolveTraits_exclusive_witness :
    (¬ (TraitLabel.privateL ∈
          resolveTraits [.privateL, .readOnly, .flow] ∧
        TraitLabel.flow ∈ resolveTraits [.privateL, .readOnly, .flow])) ∧
    TraitLabel.privateL ∉ resolveTraits [.privateL, .readOnly, .flow] := by
  have h := resolveTraits_exclusive [.privateL, .readOnly, .flow]
  exact ⟨h.1, (h.2 (Or.inl (by decide))).1⟩

/-- C2: in the fixture's expected report the array `X` is reported both
`anti` and `flow`, each entry carrying the dependence distance vector
`[1,1]` (the entries are exactly `<*X:1:18, ?>:[1,1]`). -/
theorem fixture_X_anti_flow_distance :
    (∃ e ∈ fixtureReport.anti, e.loc.base = "X" ∧ e.distance = [1, 1]) ∧
    (∃ e ∈ fixtureReport.flow, e.loc.base = "X" ∧ e.distance = [1, 1]) ∧
    fixtureReport.anti = [⟨⟨"*X", 1, 18, none⟩, [1, 1]⟩] ∧
    fixtureReport.flow = [⟨⟨"*X", 1, 18, none⟩, [1, 1]⟩] := by
  decide

/-- C3: in the fixture's expected report, `I` is reported `induction`
with type `Int`, start `1` and step `1`; `N` is reported `read only`;
`I` and `N` are exactly the `lock` entries; `I`, `N` and the array `X`
all appear under `header access`; and `I`, `N`, `X` appear under
`explicit access`, both as one merged group and individually (the
separate section lists the same locations). -/
theorem fixture_scalar_traits :
    (∃ e ∈ fixtureReport.inductionSec,
      e.loc.base = "I" ∧ e.ty = "Int" ∧ e.start = some 1 ∧ e.step = some 1) ∧
    (∃ l ∈ fixtureReport.readOnly, l.base = "N") ∧
    fixtureReport.lock.map LocSpec.base = ["I", "N"] ∧
    ("I" ∈ fixtureReport.headerAccess.map LocSpec.base ∧
     "N" ∈ fixtureReport.headerAccess.map LocSpec.base ∧
     "X" ∈ fixtureReport.headerAccess.map LocSpec.base) ∧
    fixtureReport.explicitAccess.map LocSpec.base = ["I", "N", "X"] ∧
    fixtureReport.explicitSeparate = fixtureReport.explicitAccess := by
  decide

/-- C4: for every classification result, whatever order the instruction
walk produced it in, `emit` lays the report sections out in exactly the
fixed order first-private, anti, flow, induction, read-only, lock,
header access, explicit access, explicit access (separate). -/
theorem emit_section_order_fixed (rs : List ResolvedLoc) :
    (emit rs).map Prod.fst =
      [SecName.firstPrivate, SecName.anti, SecName.flow,
       SecName.inductionS, SecName.readOnly, SecName.lock,
       SecName.headerAccess, SecName.explicitAccess,
       SecName.explicitSeparate] := by
  simp [emit, emitSectionOrder, List.map_map, Function.comp]

/-- C6: the `explicit access (separate)` section always contains exactly
the locations of the `explicit access` section — for every emitted
classification result the two sections carry the same location list, and
in the fixture's expected report the two sections list the same
locations while their rendered lines differ only in delimiting. -/
theorem explicit_separate_same_set (rs : List ResolvedLoc) :
    sectionLocs rs .explicitSeparate = sectionLocs rs .explicitAccess ∧
    fixtureReport.explicitSeparate = fixtureReport.explicitAccess ∧
    String.intercalate " " (fixtureReport.explicitSeparate.map LocSpec.render) =
      "<I:4:12, 4> <N:1:25, 4> <X:1:18, 8>" ∧
    String.intercalate " | " (fixtureReport.explicitAccess.map LocSpec.render) =
      "<I:4:12, 4> | <N:1:25, 4> | <X:1:18, 8>" := by
  refine ⟨rfl, by decide, by decide, by decide⟩

/-- C5 counterexample: in the fixture's emitted report the loop depth is
1 yet the `anti` and `flow` entries for `*X` carry the two-element
distance vector `[1,1]` — not one distance per enclosing loop depth. -/
theorem fixture_distance_pair_counterexample :
    fixtureReport.depth = 1 ∧
    (∃ e ∈ fixtureReport.anti, e.distance.length = 2) ∧
    ¬ (∀ e ∈ fixtureReport.anti, e.distance.length = fixtureReport.depth) ∧
    ¬ (∀ e ∈ fixtureReport.flow, e.distance.length = fixtureReport.depth) := by
  decide

/-- C5 amended: in the fixture's emitted report every location spec has
the form `<name>:<line>:<col>, <size-or-?>`; a bracketed
dependence-distance vector appears on every Flow/Anti/Output entry and
on no line of any other section; and each such vector carries two
integers (a minimum and a maximum distance) per enclosing loop depth. -/
theorem fixture_report_format_amended :
    (∀ l ∈ fixtureReport.allLocSpecs,
      isLocSpecChars (LocSpec.render l).toList = true) ∧
    (∀ e ∈ fixtureReport.anti ++ fixtureReport.flow ++ fixtureReport.output,
      e.distance.length = 2 * fixtureReport.depth ∧
      hasDepVectorChars (DepEntry.render e).toList = true) ∧
    (∀ s ∈ fixtureReport.nonDepLines,
      hasDepVectorChars s.toList = false) := by
  decide

/-- C7 counterexample: the caller in
`APCDistrLimitsChecker::runOnFunction` does not treat a null `find`
result as "access location not yet tracked": it fails the assertion
`Estimate memory must be presented in alias tree!` instead of
skipping. -/
theorem distr_limits_assert_counterexample :
    distrLimitsHandleAccess none none =
      CheckerStep.assertFail
        "Estimate memory must be presented in alias tree!" ∧
    distrLimitsHandleAccess none none ≠ CheckerStep.skip := by
  decide

/-- C7 amended: `find(loc)` returns null when no `EstimateMemory` has
been registered for that exact location; the callers in
`APCDistrLimitsChecker::runOnFunction`, however, assert the result
non-null (an untracked access location is an internal error there) —
the lookup those callers treat as "not yet tracked" and skip benignly
is a null `getRawDIMemoryIfExists`. -/
theorem find_null_untracked_amended (t : AliasTreeM) (loc : MemLoc)
    (h : ∀ p ∈ t.registered, p.1 ≠ loc) :
    t.find loc = none ∧
    distrLimitsHandleAccess (t.find loc) none =
      CheckerStep.assertFail
        "Estimate memory must be presented in alias tree!" ∧
    (∀ em : Nat, distrLimitsHandleAccess (some em) none =
      CheckerStep.skip) := by
  have hfind : t.find loc = none := by
    unfold AliasTreeM.find
    have : t.registered.find? (fun p => p.1 = loc) = none :=
      List.find?_eq_none.mpr (fun p hp => by
        simp only [decide_eq_true_eq]
        exact h p hp)
    rw [this]
  refine ⟨hfind, ?_, fun em => rfl⟩
  rw [hfind]
  rfl

/-- C7 witness: at the concrete alias tree holding one estimate memory
for location (0, size 4), looking up the unregistered location
(1, unknown size) yields null and the checker's access callback fails
its assertion on it. -/
theorem find_null_untracked_witness :
    (AliasTreeM.mk [(⟨0, some 4⟩, 0)]).find ⟨1, none⟩ = none ∧
    distrLimitsHandleAccess
        ((AliasTreeM.mk [(⟨0, some 4⟩, 0)]).find ⟨1, none⟩) none =
      CheckerStep.assertFail
        "Estimate memory must be presented in alias tree!" ∧
    (∀ em : Nat, distrLimitsHandleAccess (some em) none =
      CheckerStep.skip) :=
  find_null_untracked_amended (AliasTreeM.mk [(⟨0, some 4⟩, 0)])
    ⟨1, none⟩ (by decide)

/-- C8: `PragmaNamespaceReplacer::HandlePragma` is atomic with respect
to the token stream: for every directive table, handler and token
stream, the replacement queue is entered into the preprocessor exactly
when the directive handler consumed every token up to end-of-directive
(the relex token is `tok::eod` after handling); when handling stops
early — or the directive never reaches its handler — nothing is
injected. -/
theorem handle_pragma_atomic (nsName : String)
    (isKnownDirective : String → Bool) (hasHandler : String → Bool)
    (handler : TokKind → List TokKind → HandlerOutcome)
    (stream : List TokKind) :
    (PragmaNamespaceReplacer.HandlePragma nsName isKnownDirective
        hasHandler handler stream).injected.isSome = true ↔
      (PragmaNamespaceReplacer.HandlePragma nsName isKnownDirective
        hasHandler handler stream).relexAfter = some TokKind.eod := by
  unfold PragmaNamespaceReplacer.HandlePragma
  cases hname : directiveNameOf (lex1 stream).1 with
  | none => simp [hname]
  | some dirName =>
    simp only [hname]
    split_ifs with h1 h2 h3 <;> simp_all

/-- C8 witness: with a handler that leaves the relex token at
`tok::eod` the queue is injected, and with one that stops early at an
identifier nothing is injected. -/
theorem handle_pragma_atomic_witness :
    (PragmaNamespaceReplacer.HandlePragma "spf" (fun _ => true)
        (fun _ => true) (fun _ _ => ⟨.eod, []⟩)
        [.identifier "analysis", .eod]).injected.isSome = true ∧
    (PragmaNamespaceReplacer.HandlePragma "spf" (fun _ => true)
        (fun _ => true) (fun _ _ => ⟨.identifier "x", []⟩)
        [.identifier "analysis", .eod]).injected = none := by
  constructor
  · exact (handle_pragma_atomic "spf" (fun _ => true) (fun _ => true)
      (fun _ _ => ⟨.eod, []⟩) [.identifier "analysis", .eod]).mpr
      (by decide)
  · decide

/-- C9: `DvmActualReplacer::HandlePragma` and
`DvmGetActualReplacer::HandlePragma` are extensionally equal: on every
pragma token sequence both replace the pragma with the declaration and
a call of the same runtime function (`RegPragmaFunctionName`),
producing identical token queues. -/
theorem dvm_replacers_extensionally_equal
    (pragmaToks : List TokKind) :
    DvmActualReplacer.HandlePragma pragmaToks =
      DvmGetActualReplacer.HandlePragma pragmaToks := rfl

/-- C10: `AddTsarPragmaHandlers` never registers a directive handler
for a directive whose parent namespace is `Dvm`: every attached
(namespace, directive) pair has the directive's parent equal to that
namespace and different from the `Dvm` namespace id. -/
theorem add_tsar_handlers_no_dvm (T : DirectiveTables)
    (p : Nat × Nat) (hp : p ∈ AddTsarPragmaHandlers T) :
    T.directiveParent p.2 ≠ T.dvm ∧ T.directiveParent p.2 = p.1 := by
  simp only [AddTsarPragmaHandlers, List.mem_flatMap,
    List.mem_filterMap] at hp
  obtain ⟨nid, hnid, did, hdid, hf⟩ := hp
  by_cases h1 : T.directiveParent did = nid
  · by_cases h2 : T.directiveParent did = T.dvm
    · rw [if_pos h1, if_pos h2] at hf
      exact Option.noConfusion hf
    · rw [if_pos h1, if_neg h2] at hf
      obtain rfl := Option.some.inj hf
      exact ⟨h2, h1⟩
  · rw [if_neg h1] at hf
    exact Option.noConfusion hf

/-- C10 witness: with the sample directive table the loop attaches
exactly the pair (namespace 1, directive 1), whose parent namespace 1
differs from the `Dvm` id 2. -/
theorem add_tsar_handlers_no_dvm_witness :
    (1, 1) ∈ AddTsarPragmaHandlers sampleTables ∧
    sampleTables.directiveParent 1 ≠ sampleTables.dvm :=
  ⟨by decide,
   (add_tsar_handlers_no_dvm sampleTables (1, 1) (by decide)).1⟩

end Tsar
